import Mathlib

/-!
Verification of the Velocity gateway's load-balanced failover dispatcher.

This file shallowly embeds the parts of the Go sources that the verified
properties are about:

* `src/internal/proxy/proxy.go` — the round-robin dispatcher (`New`,
  `Proxy.ServeHTTP`, `Proxy.tryTarget`, `Proxy.GetStats`);
* `src/internal/config/types.go` — `TargetConfig` and its `Validate`;
* `src/pkg/errors/errors.go` — the error taxonomy, `getDefaultStatusCode`,
  `getDefaultSeverity`, `GatewayError.IsRetriable`, and `New`.

Go machine integers (`int64`) are embedded as `Int` with explicit wrap-around
(`i64wrap`), and Go's truncated `%` as `Int.tmod`.  Monotone per-target
statistics counters, which only ever receive `atomic.AddInt64(_, 1)` starting
from zero, are embedded as `Nat` (exact for fewer than 2^63 increments, which
covers every state reachable by that code).  The network is embedded as an
oracle `fails : Nat → Option String` saying whether the forwarding attempt to
the target at a pool position makes `httputil.ReverseProxy` invoke the
configured `ErrorHandler`, and with which error message.  Writes to the
client's `http.ResponseWriter` are accumulated in a list.
-/

/-! ## URLs — model of Go `net/url.Parse` (standard library)

Only the behaviour exercised by this repository is modelled: scheme
extraction exactly as in `net/url.getScheme` (lower-cased scheme before the
first `:`, error when the `:` comes first), rejection of control characters,
and splitting of a `//`-authority into host and path.  Userinfo is stripped
from the authority; port strings are kept as part of the host, as in
`url.URL.Host`. -/

structure URL where
  scheme : String
  host : String
  path : String
deriving Repr, DecidableEq

/-- One character of Go scheme syntax: `a-z A-Z`. -/
def isSchemeAlpha (c : Char) : Bool :=
  (('a' ≤ c) && (c ≤ 'z')) || (('A' ≤ c) && (c ≤ 'Z'))

/-- One character of Go scheme syntax after the first: `0-9 + - .`. -/
def isSchemeExtra (c : Char) : Bool :=
  c.isDigit || c = '+' || c = '-' || c = '.'

/-- Model of `net/url.getScheme`: scan up to the first `:`.  Returns
`(scheme, rest)`; the scheme is empty when the string carries none.
`raw` is the whole input (returned untouched when no scheme is found). -/
def getScheme (raw : List Char) : List Char → List Char →
    Except String (List Char × List Char)
  | _, [] => .ok ([], raw)
  | acc, c :: cs =>
    if isSchemeAlpha c then getScheme raw (acc ++ [c]) cs
    else if isSchemeExtra c then
      if acc = [] then .ok ([], raw) else getScheme raw (acc ++ [c]) cs
    else if c = ':' then
      if acc = [] then .error "missing protocol scheme"
      else .ok (acc.map Char.toLower, cs)
    else .ok ([], raw)

/-- Control characters make `net/url.Parse` fail. -/
def hasCtlChar (raw : List Char) : Bool :=
  raw.any (fun c => c.toNat < 32 || c.toNat = 127)

/-- Authority terminators in `net/url.parse`: `/`, `?`, `#`. -/
def endsAuthority (c : Char) : Bool :=
  c = '/' || c = '?' || c = '#'

/-- Strip `userinfo@` from an authority, keeping everything after the last
`@` (as `net/url.parseAuthority` does). -/
def stripUserinfo (auth : List Char) : List Char :=
  if auth.contains '@' then
    ((auth.reverse.takeWhile (fun c => c ≠ '@'))).reverse
  else auth

/-- Model of `net/url.Parse` restricted to the URL shapes this repository
handles: an optional scheme, an optional `//host` authority, and a path. -/
def urlParse (s : String) : Except String URL :=
  let raw := s.toList
  if hasCtlChar raw then .error "invalid control character in URL"
  else
    match getScheme raw [] raw with
    | .error e => .error e
    | .ok (sch, rest) =>
      match rest with
      | '/' :: '/' :: more =>
        let auth := more.takeWhile (fun c => !(endsAuthority c))
        let path := more.dropWhile (fun c => !(endsAuthority c))
        .ok { scheme := ⟨sch⟩, host := ⟨stripUserinfo auth⟩, path := ⟨path⟩ }
      | _ => .ok { scheme := ⟨sch⟩, host := "", path := ⟨rest⟩ }

/-! ## Configuration — from `src/internal/config/types.go`

`TargetConfig` keeps the fields of the Go struct that any modelled operation
reads (`Tags` and `Timeout` are carried by no modelled check and are
dropped).  `Config` keeps its `Targets` list; the server/logging/health
sections feed only the HTTP server and the logger, which the modelled
operations never read. -/

structure TargetConfig where
  url : String
  weight : Int
  enabled : Bool
  name : String
  maxConnections : Int
deriving Repr, DecidableEq

structure Config where
  targets : List TargetConfig
deriving Repr, DecidableEq

/-- Model of `TargetConfig.Validate` (`src/internal/config/types.go`,
lines 373–397): require a URL, parse it, require an http/https scheme,
and range-check weight and max_connections.  `some msg` is the returned
error, `none` is success. -/
def TargetConfigValidate (t : TargetConfig) : Option String :=
  if t.url = "" then some "URL is required"
  else
    match urlParse t.url with
    | .error _ => some ("invalid URL " ++ t.url)
    | .ok u =>
      if u.scheme ≠ "http" ∧ u.scheme ≠ "https" then
        some ("URL scheme must be http or https, got " ++ u.scheme)
      else if t.weight < 0 ∨ t.weight > 100 then
        some "weight must be between 0 and 100"
      else if t.maxConnections < 0 then
        some "max_connections must be non-negative"
      else none

/-! ## int64 arithmetic helpers -/

/-- Wrap an integer into the two's-complement `int64` range, as every Go
`int64` operation does. -/
def i64wrap (x : Int) : Int :=
  (x + 9223372036854775808) % 18446744073709551616 - 9223372036854775808

/-- Go `int64` addition. -/
def i64add (x y : Int) : Int := i64wrap (x + y)

/-- Go's `%` on integers truncates toward zero (sign of the dividend). -/
def goMod (a b : Int) : Int := a.tmod b

/-! ## The dispatcher — from `src/internal/proxy/proxy.go` -/

/-- `TargetStats` (lines 64–73): per-target counters.  In Go these are
`int64` mutated only by `atomic.AddInt64(_, 1)` from zero; they are embedded
as `Nat` (exact for fewer than 2^63 increments). -/
structure TargetStats where
  requests : Nat
  successes : Nat
  failures : Nat
deriving Repr, DecidableEq

/-- `Proxy` (lines 49–61): parsed targets, the `int64` round-robin counter,
and per-target stats.  The logger field only emits log lines and is not
modelled. -/
structure Proxy where
  targets : List URL
  current : Int
  stats : List TargetStats
deriving Repr, DecidableEq

/-- Walk `cfg.Targets` as the loop in `New` (lines 104–115) does: skip
disabled entries, parse the URL of each enabled entry, fail on the first
parse error. -/
def collectTargets : List TargetConfig → Except String (List URL)
  | [] => .ok []
  | t :: ts =>
    if t.enabled then
      match urlParse t.url with
      | .error _ => .error ("invalid target URL " ++ t.url)
      | .ok u =>
        match collectTargets ts with
        | .error e => .error e
        | .ok us => .ok (u :: us)
    else collectTargets ts

/-- `New` (lines 101–132): build the pool from the enabled targets, fail if
none remain, and start with a zero counter and zeroed stats. -/
def New (cfg : Config) : Except String Proxy :=
  match collectTargets cfg.targets with
  | .error e => .error e
  | .ok targets =>
    if targets.length = 0 then .error "no enabled targets configured"
    else .ok { targets := targets, current := 0,
               stats := List.replicate targets.length ⟨0, 0, 0⟩ }

/-- A dispatcher as `New` builds it from an already-parsed pool. -/
def freshProxy (ts : List URL) : Proxy :=
  { targets := ts, current := 0, stats := List.replicate ts.length ⟨0, 0, 0⟩ }

/-! ## Requests, headers, and client writes -/

/-- The parts of `*http.Request` the dispatcher reads or mutates:
`r.Method`, `r.URL.Path`, `r.Host`, `r.RemoteAddr`, `r.Header`.  Headers
are an association list with the Go `Header.Set` replace-or-append
semantics; the keys used by the code are already in canonical form. -/
structure Request where
  method : String
  path : String
  host : String
  remoteAddr : String
  headers : List (String × String)
deriving Repr, DecidableEq

/-- `http.Header.Set`: replace the entry for a key, or append it. -/
def headerSet : List (String × String) → String → String →
    List (String × String)
  | [], k, v => [(k, v)]
  | (k0, v0) :: rest, k, v =>
    if k0 = k then (k, v) :: rest else (k0, v0) :: headerSet rest k v

/-- `http.Header.Get`: first value for a key. -/
def headerGet : List (String × String) → String → Option String
  | [], _ => none
  | (k0, v0) :: rest, k => if k0 = k then some v0 else headerGet rest k

/-- The two header mutations `tryTarget` performs before forwarding
(lines 179–180): `Set("X-Forwarded-Host", r.Host)` then
`Set("X-Forwarded-For", r.RemoteAddr)`. -/
def setForwardHeaders (r : Request) : Request :=
  let h1 := headerSet r.headers "X-Forwarded-Host" r.host
  { r with headers := headerSet h1 "X-Forwarded-For" r.remoteAddr }

/-- One write to the client's `http.ResponseWriter`:
* `streamed host` — a backend response streamed through by the reverse
  proxy on a successful attempt;
* `errorJSON status lastTarget message` — the terminal JSON error body
  written by the `ErrorHandler` on the last attempt (line 175), carrying
  the host of the target just tried and the transport error message;
* `plainError status body` — `http.Error`, used for an empty pool. -/
inductive ClientWrite where
  | streamed (host : String)
  | errorJSON (status : Nat) (lastTarget : String) (message : String)
  | plainError (status : Nat) (body : String)
deriving Repr, DecidableEq

/-! ## `tryTarget` and `ServeHTTP` -/

/-- Result of one `tryTarget` call: the updated stats, the request with its
forwarding headers set, what (if anything) was written to the client, and
the boolean `tryTarget` returns (`!failed`). -/
structure TryResult where
  stats : List TargetStats
  req : Request
  write : Option ClientWrite
  ok : Bool
deriving Repr, DecidableEq

/-- Bump one counter triple at a position; positions past the end are left
unchanged (in Go an out-of-range index would panic first, in `ServeHTTP`). -/
def bumpAt (f : TargetStats → TargetStats) :
    List TargetStats → Nat → List TargetStats
  | [], _ => []
  | s :: rest, 0 => f s :: rest
  | s :: rest, n + 1 => s :: bumpAt f rest n

def bumpRequests (stats : List TargetStats) (i : Nat) : List TargetStats :=
  bumpAt (fun s => { s with requests := s.requests + 1 }) stats i

def bumpSuccesses (stats : List TargetStats) (i : Nat) : List TargetStats :=
  bumpAt (fun s => { s with successes := s.successes + 1 }) stats i

def bumpFailures (stats : List TargetStats) (i : Nat) : List TargetStats :=
  bumpAt (fun s => { s with failures := s.failures + 1 }) stats i

/-- `Proxy.tryTarget` (lines 158–190).  In order: bump `Requests`; set the
forwarding headers; forward (the oracle `fails` says whether the reverse
proxy's `ErrorHandler` fires for this pool position, and with which error
message).  On failure bump `Failures` and, on the last attempt, write the
terminal 502 JSON body naming the target's host.  On success the backend
response has been streamed and `Successes` is bumped. -/
def tryTarget (stats : List TargetStats) (r : Request)
    (fails : Nat → Option String) (target : URL) (targetIndex : Nat)
    (isLastAttempt : Bool) : TryResult :=
  let stats1 := bumpRequests stats targetIndex
  let r1 := setForwardHeaders r
  match fails targetIndex with
  | some msg =>
    { stats := bumpFailures stats1 targetIndex
      req := r1
      write := if isLastAttempt then
                 some (.errorJSON 502 target.host msg)
               else none
      ok := false }
  | none =>
    { stats := bumpSuccesses stats1 targetIndex
      req := r1
      write := some (.streamed target.host)
      ok := true }

/-- One forwarding attempt as recorded for the trace: the pool position
chosen, the host forwarded to, and the headers carried by the request at
forward time. -/
structure Attempt where
  index : Nat
  targetHost : String
  headers : List (String × String)
deriving Repr, DecidableEq

/-- Accumulated outcome of the retry loop in `ServeHTTP`. -/
structure LoopResult where
  stats : List TargetStats
  req : Request
  attempts : List Attempt
  writes : List ClientWrite
deriving Repr, DecidableEq

/-- The `for attempt` loop of `ServeHTTP` (lines 143–152), with
`remaining = len(p.targets) - attempt` iterations left.  The target index
is `(startIndex + attempt) % len(targets)` in Go `int64` arithmetic; a
negative index models the Go slice-index panic (`none`).  The loop returns
as soon as `tryTarget` reports success; after the last failed attempt it
falls through (only a log line follows in Go). -/
def serveLoop (fails : Nat → Option String) (targets : List URL)
    (startIndex : Int) :
    Nat → Nat → List TargetStats → Request → List Attempt →
    List ClientWrite → Option LoopResult
  | 0, _, stats, r, accA, accW => some ⟨stats, r, accA.reverse, accW.reverse⟩
  | remaining + 1, attempt, stats, r, accA, accW =>
    let ti : Int := goMod (i64add startIndex (Int.ofNat attempt))
                      (Int.ofNat targets.length)
    if h : 0 ≤ ti ∧ ti.toNat < targets.length then
      let target := targets.get ⟨ti.toNat, h.2⟩
      let isLast := attempt = targets.length - 1
      let t := tryTarget stats r fails target ti.toNat isLast
      let accA2 := Attempt.mk ti.toNat target.host t.req.headers :: accA
      let accW2 := match t.write with
                   | some w => w :: accW
                   | none => accW
      if t.ok then some ⟨t.stats, t.req, accA2.reverse, accW2.reverse⟩
      else serveLoop fails targets startIndex remaining (attempt + 1)
             t.stats t.req accA2 accW2
    else none

/-- Everything a single `ServeHTTP` invocation produced: the dispatcher
with its updated counters, the (mutated) request, the attempt trace, and
the client-facing writes in order. -/
structure DispatchResult where
  proxy : Proxy
  req : Request
  attempts : List Attempt
  writes : List ClientWrite
deriving Repr, DecidableEq

/-- `Proxy.ServeHTTP` (lines 136–155).  An empty pool answers
`http.Error(w, "No targets available", 502)`.  Otherwise
`startIndex := atomic.AddInt64(&p.current, 1) - 1` — in `int64` arithmetic
that is exactly the previous counter value — and the retry loop runs over
the whole pool. -/
def serveHTTP (p : Proxy) (r : Request) (fails : Nat → Option String) :
    Option DispatchResult :=
  if p.targets.length = 0 then
    some { proxy := p, req := r, attempts := []
           writes := [.plainError 502 "No targets available"] }
  else
    match serveLoop fails p.targets p.current p.targets.length 0
            p.stats r [] [] with
    | none => none
    | some lr =>
      some { proxy := { targets := p.targets,
                        current := i64wrap (p.current + 1),
                        stats := lr.stats }
             req := lr.req, attempts := lr.attempts, writes := lr.writes }

/-- `m` sequential, non-overlapping `ServeHTTP` invocations with the same
failure oracle (each inbound request carries the same data `r`; `ServeHTTP`
never reads its own header mutations). -/
def serveMany (r : Request) (fails : Nat → Option String) :
    Nat → Proxy → Option Proxy
  | 0, p => some p
  | m + 1, p =>
    match serveHTTP p r fails with
    | none => none
    | some res => serveMany r fails m res.proxy

/-! ## Error taxonomy — from `src/pkg/errors/errors.go` -/

namespace Errors

/-- `ErrorCode` (lines 53–98), one constructor per declared constant. -/
inductive ErrorCode where
  | internalError
  | configurationError
  | initializationError
  | shutdownError
  | noHealthyTargets
  | loadBalancerError
  | routingError
  | circuitBreakerOpen
  | upstreamError
  | upstreamTimeout
  | upstreamUnavailable
  | upstreamOverloaded
  | upstreamProtocol
  | healthCheckFailed
  | targetUnhealthy
  | healthCheckTimeout
  | badRequest
  | unauthorized
  | forbidden
  | notFound
  | methodNotAllowed
  | requestTimeout
  | requestTooLarge
  | tooManyRequests
  | invalidHeaders
  | rateLimitExceeded
  | quotaExceeded
  | invalidToken
  | tokenExpired
  | insufficientScope
deriving Repr, DecidableEq

/-- `ErrorSeverity` (lines 101–110). -/
inductive ErrorSeverity where
  | debug
  | info
  | warn
  | error
  | critical
  | fatal
deriving Repr, DecidableEq

open ErrorCode

/-- `getDefaultStatusCode` (lines 430–471), branch for branch. -/
def getDefaultStatusCode (code : ErrorCode) : Nat :=
  match code with
  | badRequest | invalidHeaders => 400
  | unauthorized | invalidToken | tokenExpired => 401
  | forbidden | insufficientScope => 403
  | notFound => 404
  | methodNotAllowed => 405
  | requestTimeout => 408
  | requestTooLarge => 413
  | tooManyRequests | rateLimitExceeded | quotaExceeded => 429
  | upstreamError | upstreamTimeout | upstreamUnavailable
  | noHealthyTargets | circuitBreakerOpen => 502
  | loadBalancerError | healthCheckFailed | targetUnhealthy
  | upstreamOverloaded | healthCheckTimeout => 503
  | _ => 500

/-- `getDefaultSeverity` (lines 473–493). -/
def getDefaultSeverity (code : ErrorCode) : ErrorSeverity :=
  match code with
  | internalError | initializationError | shutdownError => .fatal
  | configurationError | noHealthyTargets => .critical
  | upstreamError | loadBalancerError | healthCheckFailed => .error
  | upstreamTimeout | targetUnhealthy => .warn
  | badRequest | unauthorized | forbidden | notFound => .info
  | _ => .error

/-- The fields of `GatewayError` that classification reads or writes.
(The tracing, context, and pooling fields never feed `IsRetriable` or the
status mapping; `New` overwrites every field of a pooled instance before
returning it, so no pooled state leaks into these fields.) -/
structure GatewayError where
  code : ErrorCode
  statusCode : Nat
  severity : ErrorSeverity
  message : String
  timestamp : Int
deriving Repr, DecidableEq

/-- `GatewayError.IsRetriable` (lines 253–262): a switch on `e.Code` alone. -/
def IsRetriable (e : GatewayError) : Bool :=
  match e.code with
  | upstreamTimeout | upstreamUnavailable | upstreamOverloaded
  | loadBalancerError | healthCheckTimeout => true
  | _ => false

/-- `New` (lines 341–369): the classification-relevant field assignments.
`now` stands for `time.Now().UnixNano()`. -/
def New (code : ErrorCode) (message : String) (now : Int) : GatewayError :=
  { code := code
    message := message
    timestamp := now
    statusCode := getDefaultStatusCode code
    severity := getDefaultSeverity code }

/-- The triple the spec's classification contract is about. -/
def classifyTriple (e : GatewayError) : ErrorCode × Bool × Nat :=
  (e.code, IsRetriable e, e.statusCode)

end Errors

/-! ## Specification-side definitions and concrete data -/

/-- The oracle for runs in which no forwarding attempt fails. -/
def allOk : Nat → Option String := fun _ => none

/-- How many of the dispatch positions `(c + j) % N` for `j < m` equal `i`:
the number of times round-robin starting values `c, c+1, …, c+m-1` select
pool position `i`. -/
def hits (c N i m : Nat) : Nat :=
  ((Finset.range m).filter (fun j => (c + j) % N = i)).card

/-- Parse every URL of a target-configuration list, in order; `none` when
any of them fails to parse.  Used to state what a constructed pool must
contain. -/
def parseAllUrls : List TargetConfig → Option (List URL)
  | [] => some []
  | t :: ts =>
    match (urlParse t.url).toOption with
    | none => none
    | some u =>
      match parseAllUrls ts with
      | none => none
      | some us => some (u :: us)

/-- Boolean check for the amended C4 property: every recorded attempt of a
dispatch forwarded the request with `X-Forwarded-Host` set to the inbound
request's host and `X-Forwarded-For` set (overwritten) to its remote
address. -/
def forwardHeadersOk (r : Request) : Option DispatchResult → Bool
  | none => true
  | some res => res.attempts.all fun a =>
      (headerGet a.headers "X-Forwarded-Host" == some r.host) &&
      (headerGet a.headers "X-Forwarded-For" == some r.remoteAddr)

namespace Errors

open ErrorCode

/-- The client-facing status mapping in the words of spec §4.3, amended in
the one point the code forces: the no-healthy-targets class is grouped with
the 502 upstream-unavailability classes (not 503), and the 503 bucket
holds the overload class together with the load-balancer/health-check
classes.  Client-fault codes keep their straight-through 4xx statuses and
every unlisted code defaults to 500. -/
def specStatus (c : ErrorCode) : Nat :=
  match c with
  | badRequest | invalidHeaders => 400
  | unauthorized | invalidToken | tokenExpired => 401
  | forbidden | insufficientScope => 403
  | notFound => 404
  | methodNotAllowed => 405
  | requestTimeout => 408
  | requestTooLarge => 413
  | tooManyRequests | rateLimitExceeded | quotaExceeded => 429
  | upstreamError | upstreamTimeout | upstreamUnavailable
  | circuitBreakerOpen | noHealthyTargets => 502
  | upstreamOverloaded | loadBalancerError | healthCheckFailed
  | targetUnhealthy | healthCheckTimeout => 503
  | _ => 500

end Errors

/-! Concrete data for counterexamples and witnesses. -/

def uA : URL := { scheme := "http", host := "a", path := "" }

def uB : URL := { scheme := "http", host := "b", path := "" }

def uOk : URL := { scheme := "http", host := "ok", path := "" }

/-- An inbound request that already carries an `X-Forwarded-For` header. -/
def rW : Request :=
  { method := "GET", path := "/", host := "example.com"
    remoteAddr := "10.0.0.1:5555"
    headers := [("X-Forwarded-For", "1.2.3.4")] }

/-- A disabled target entry. -/
def dW : TargetConfig :=
  { url := "http://x", weight := 0, enabled := false, name := ""
    maxConnections := 0 }

/-- An enabled, valid target entry. -/
def eW : TargetConfig :=
  { url := "http://ok", weight := 0, enabled := true, name := ""
    maxConnections := 0 }

/-- An enabled target whose URL parses but whose scheme is `ftp`. -/
def tFtp : TargetConfig :=
  { url := "ftp://example.com", weight := 0, enabled := true, name := ""
    maxConnections := 0 }

def cfgW : Config := { targets := [dW, eW] }

/-- A dispatcher over two targets whose round-robin counter holds the
`int64` value `-3` (reachable after wrap-around of the always-incremented
counter). -/
def pNeg : Proxy :=
  { targets := [uA, uB], current := -3, stats := [⟨0, 0, 0⟩, ⟨0, 0, 0⟩] }

/-! ## Helper lemmas: headers -/

theorem headerGet_headerSet_self (h : List (String × String)) (k v : String) :
    headerGet (headerSet h k v) k = some v := by
  induction h with
  | nil => simp [headerSet, headerGet]
  | cons kv rest ih =>
    by_cases hk : kv.1 = k
    · simp [headerSet, headerGet, hk]
    · simp [headerSet, headerGet, hk, ih]

theorem headerGet_headerSet_ne (h : List (String × String)) (k k2 v : String)
    (hne : k2 ≠ k) : headerGet (headerSet h k2 v) k = headerGet h k := by
  induction h with
  | nil => simp [headerSet, headerGet, hne]
  | cons kv rest ih =>
    by_cases hk : kv.1 = k2
    · simp [headerSet, headerGet, hk, hne]
    · simp only [headerSet, headerGet, hk, if_neg hk, ite_false]
      by_cases hk2 : kv.1 = k
      · simp [headerGet, hk2]
      · simp [headerGet, hk2, ih]

theorem setForwardHeaders_xfh (r : Request) :
    headerGet (setForwardHeaders r).headers "X-Forwarded-Host" = some r.host := by
  unfold setForwardHeaders
  rw [headerGet_headerSet_ne _ _ _ _ (by decide), headerGet_headerSet_self]

theorem setForwardHeaders_xff (r : Request) :
    headerGet (setForwardHeaders r).headers "X-Forwarded-For" =
      some r.remoteAddr := by
  unfold setForwardHeaders
  exact headerGet_headerSet_self _ _ _

theorem setForwardHeaders_host (r : Request) :
    (setForwardHeaders r).host = r.host := rfl

theorem setForwardHeaders_remoteAddr (r : Request) :
    (setForwardHeaders r).remoteAddr = r.remoteAddr := rfl

/-! ## Helper lemmas: counter updates -/

theorem bumpAt_getElem_eq (f : TargetStats → TargetStats) :
    ∀ (l : List TargetStats) (i : Nat) (s : TargetStats),
      l[i]? = some s → (bumpAt f l i)[i]? = some (f s)
  | [], i, s, h => by simp at h
  | t :: rest, 0, s, h => by
    simp at h
    simp [bumpAt, h]
  | t :: rest, i + 1, s, h => by
    simp at h
    simpa [bumpAt] using bumpAt_getElem_eq f rest i s h

theorem bumpAt_getElem_ne (f : TargetStats → TargetStats) :
    ∀ (l : List TargetStats) (i j : Nat), i ≠ j →
      (bumpAt f l i)[j]? = l[j]?
  | [], _, _, _ => by simp [bumpAt]
  | t :: rest, 0, 0, h => absurd rfl h
  | t :: rest, 0, j + 1, _ => by simp [bumpAt]
  | t :: rest, i + 1, 0, _ => by simp [bumpAt]
  | t :: rest, i + 1, j + 1, h => by
    simpa [bumpAt] using bumpAt_getElem_ne f rest i j (by omega)

theorem bumpAt_length (f : TargetStats → TargetStats) :
    ∀ (l : List TargetStats) (i : Nat), (bumpAt f l i).length = l.length
  | [], _ => rfl
  | t :: rest, 0 => rfl
  | t :: rest, i + 1 => by simp [bumpAt, bumpAt_length f rest i]

/-! ## Helper lemmas: int64 arithmetic -/

theorem i64wrap_id (x : Int) (h1 : -9223372036854775808 ≤ x)
    (h2 : x ≤ 9223372036854775807) : i64wrap x = x := by
  unfold i64wrap
  omega

theorem tmod_ofNat (m L : Nat) :
    Int.tmod (Int.ofNat m) (Int.ofNat L) = Int.ofNat (m % L) := rfl

theorem goMod_toNat (c : Int) (L : Nat) (hc : 0 ≤ c) :
    goMod c (Int.ofNat L) = Int.ofNat (c.toNat % L) := by
  obtain ⟨m, rfl⟩ := Int.eq_ofNat_of_zero_le hc
  have h1 : ((m : Int)).tmod (Int.ofNat L) = Int.ofNat (m % L) := tmod_ofNat m L
  rw [goMod, h1]
  simp

/-! ## Helper lemmas: pool construction -/

theorem collectTargets_all_disabled :
    ∀ (l : List TargetConfig), (∀ t ∈ l, t.enabled = false) →
      collectTargets l = .ok []
  | [], _ => rfl
  | t :: ts, h => by
    have ht : t.enabled = false := h t (List.mem_cons_self t ts)
    have := collectTargets_all_disabled ts
      (fun t2 ht2 => h t2 (List.mem_cons_of_mem t ht2))
    simp [collectTargets, ht, this]

theorem collectTargets_cons_disabled (d : TargetConfig)
    (ts : List TargetConfig) (hd : d.enabled = false) :
    collectTargets (d :: ts) = collectTargets ts := by
  simp [collectTargets, hd]

theorem collectTargets_parseAllUrls :
    ∀ (l : List TargetConfig) (us : List URL), collectTargets l = .ok us →
      parseAllUrls (l.filter (fun t => t.enabled)) = some us
  | [], us, h => by
    simp [collectTargets] at h
    simp [parseAllUrls, ← h]
  | t :: ts, us, h => by
    by_cases ht : t.enabled = true
    · rw [collectTargets] at h
      simp only [ht, if_true] at h
      cases hu : urlParse t.url with
      | error e => rw [hu] at h; exact absurd h (by simp)
      | ok u =>
        rw [hu] at h
        cases hrest : collectTargets ts with
        | error e => rw [hrest] at h; exact absurd h (by simp)
        | ok us2 =>
          rw [hrest] at h
          have hus : us = u :: us2 := by
            simp at h
            exact h.symm
          have ih := collectTargets_parseAllUrls ts us2 hrest
          simp [List.filter_cons, ht, parseAllUrls, hu, Except.toOption,
            ih, hus]
    · have ht2 : t.enabled = false := by
        revert ht; cases t.enabled <;> simp
      rw [collectTargets_cons_disabled t ts ht2] at h
      have ih := collectTargets_parseAllUrls ts us h
      simp [List.filter_cons, ht2, ih]

theorem parseAllUrls_length :
    ∀ (l : List TargetConfig) (us : List URL),
      parseAllUrls l = some us → us.length = l.length
  | [], us, h => by simp [parseAllUrls] at h; simp [← h]
  | t :: ts, us, h => by
    rw [parseAllUrls] at h
    cases hu : (urlParse t.url).toOption with
    | none => rw [hu] at h; exact absurd h (by simp)
    | some u =>
      rw [hu] at h
      cases hrest : parseAllUrls ts with
      | none => rw [hrest] at h; exact absurd h (by simp)
      | some us2 =>
        rw [hrest] at h
        have hus : us = u :: us2 := by simp at h; exact h.symm
        subst hus
        simp [parseAllUrls_length ts us2 hrest]

/-! ## Helper lemmas: round-robin counting -/

theorem hits_zero (c N i : Nat) : hits c N i 0 = 0 := rfl

theorem hits_succ (c N i m : Nat) :
    hits c N i (m + 1) =
      hits c N i m + (if (c + m) % N = i then 1 else 0) := by
  unfold hits
  rw [Finset.range_succ, Finset.filter_insert]
  by_cases h : (c + m) % N = i
  · rw [if_pos h, if_pos h, Finset.card_insert_of_not_mem (by simp)]
  · rw [if_neg h, if_neg h, Nat.add_zero]

theorem hits_add (c N i a : Nat) :
    ∀ b, hits c N i (a + b) = hits c N i a + hits (c + a) N i b
  | 0 => by simp [hits_zero]
  | b + 1 => by
    rw [← Nat.add_assoc, hits_succ, hits_add c N i a b, hits_succ,
      Nat.add_assoc]
    congr 2
    rw [Nat.add_assoc]

theorem cycle_filter_card (c N i : Nat) (hN : 0 < N) (hi : i < N) :
    ((Finset.range N).filter (fun j => (c + j) % N = i)).card = 1 := by
  have hinj : Set.InjOn (fun j => (c + j) % N) (Finset.range N) := by
    intro a ha b hb hab
    simp only [Finset.coe_range, Set.mem_Iio] at ha hb
    have hmod : (c + a) % N = (c + b) % N := hab
    have hab2 : a % N = b % N :=
      Nat.ModEq.add_left_cancel' c hmod
    rwa [Nat.mod_eq_of_lt ha, Nat.mod_eq_of_lt hb] at hab2
  have hsub : Finset.image (fun j => (c + j) % N) (Finset.range N) ⊆
      Finset.range N := by
    intro x hx
    simp only [Finset.mem_image, Finset.mem_range] at hx ⊢
    obtain ⟨j, _, rfl⟩ := hx
    exact Nat.mod_lt _ hN
  have hcard : (Finset.image (fun j => (c + j) % N)
      (Finset.range N)).card = N := by
    rw [Finset.card_image_of_injOn hinj, Finset.card_range]
  have himg : Finset.image (fun j => (c + j) % N) (Finset.range N) =
      Finset.range N :=
    Finset.eq_of_subset_of_card_le hsub (by rw [hcard, Finset.card_range])
  have hmem : i ∈ Finset.image (fun j => (c + j) % N) (Finset.range N) := by
    rw [himg]; exact Finset.mem_range.mpr hi
  obtain ⟨t0, ht0mem, ht0⟩ := Finset.mem_image.mp hmem
  rw [Finset.card_eq_one]
  refine ⟨t0, ?_⟩
  ext x
  simp only [Finset.mem_filter, Finset.mem_range, Finset.mem_singleton]
  constructor
  · rintro ⟨hx, hfx⟩
    exact hinj (by simpa using hx) (by simpa using ht0mem)
      (by simpa [ht0] using hfx)
  · rintro rfl
    exact ⟨Finset.mem_range.mp ht0mem, ht0⟩

theorem hits_cycle (c N i : Nat) (hN : 0 < N) (hi : i < N) :
    hits c N i N = 1 :=
  cycle_filter_card c N i hN hi

theorem hits_cycles (c N i k : Nat) (hN : 0 < N) (hi : i < N) :
    hits c N i (k * N) = k := by
  induction k with
  | zero => simp [hits_zero]
  | succ k ih =>
    have hmul : (k + 1) * N = k * N + N := by ring
    rw [hmul, hits_add, ih, hits_cycle _ N i hN hi]

theorem hits_one (c N i : Nat) :
    hits c N i 1 = if c % N = i then 1 else 0 := by
  rw [show (1 : Nat) = 0 + 1 from rfl, hits_succ, hits_zero, Nat.zero_add,
    Nat.add_zero]

/-! ## Helper lemmas: the dispatch loop -/

theorem serveLoop_success_step (fails : Nat → Option String)
    (targets : List URL) (startIndex : Int) (rem attempt : Nat)
    (stats : List TargetStats) (r : Request) (accA : List Attempt)
    (accW : List ClientWrite)
    (hidx : 0 ≤ goMod (i64add startIndex (Int.ofNat attempt))
      (Int.ofNat targets.length))
    (hlt : (goMod (i64add startIndex (Int.ofNat attempt))
      (Int.ofNat targets.length)).toNat < targets.length)
    (hok : fails ((goMod (i64add startIndex (Int.ofNat attempt))
      (Int.ofNat targets.length)).toNat) = none) :
    serveLoop fails targets startIndex (rem + 1) attempt stats r accA accW =
      some ⟨bumpSuccesses (bumpRequests stats
              ((goMod (i64add startIndex (Int.ofNat attempt))
                (Int.ofNat targets.length)).toNat))
              ((goMod (i64add startIndex (Int.ofNat attempt))
                (Int.ofNat targets.length)).toNat),
            setForwardHeaders r,
            (Attempt.mk ((goMod (i64add startIndex (Int.ofNat attempt))
                (Int.ofNat targets.length)).toNat)
              (targets.get ⟨_, hlt⟩).host
              (setForwardHeaders r).headers :: accA).reverse,
            (ClientWrite.streamed (targets.get ⟨_, hlt⟩).host ::
              accW).reverse⟩ := by
  rw [serveLoop, dif_pos ⟨hidx, hlt⟩]
  simp only [tryTarget]
  rw [hok]
  simp

theorem toNat_ofNat (n : Nat) : (Int.ofNat n).toNat = n := rfl

theorem ofNat_zero_eq : Int.ofNat 0 = 0 := rfl

theorem ofNat_nonneg (n : Nat) : 0 ≤ Int.ofNat n :=
  Int.ofNat_le.mpr (Nat.zero_le n)

theorem serveHTTP_allOk (p : Proxy) (r : Request)
    (hN : 0 < p.targets.length) (hc0 : 0 ≤ p.current)
    (hcB : p.current ≤ 9223372036854775806) :
    ∃ res, serveHTTP p r allOk = some res ∧
      res.proxy.targets = p.targets ∧
      res.proxy.current = p.current + 1 ∧
      res.proxy.stats =
        bumpSuccesses
          (bumpRequests p.stats (p.current.toNat % p.targets.length))
          (p.current.toNat % p.targets.length) := by
  obtain ⟨n, hn⟩ : ∃ n, p.targets.length = n + 1 :=
    ⟨p.targets.length - 1, by omega⟩
  have hadd : i64add p.current (Int.ofNat 0) = p.current := by
    rw [ofNat_zero_eq]
    unfold i64add i64wrap
    omega
  have hmod : goMod (i64add p.current (Int.ofNat 0))
      (Int.ofNat p.targets.length) =
      Int.ofNat (p.current.toNat % p.targets.length) := by
    rw [hadd]
    exact goMod_toNat _ _ hc0
  have hidx : 0 ≤ goMod (i64add p.current (Int.ofNat 0))
      (Int.ofNat p.targets.length) := by
    rw [hmod]
    exact ofNat_nonneg _
  have hlt : (goMod (i64add p.current (Int.ofNat 0))
      (Int.ofNat p.targets.length)).toNat < p.targets.length := by
    rw [hmod, toNat_ofNat]
    exact Nat.mod_lt _ hN
  have hok : allOk ((goMod (i64add p.current (Int.ofNat 0))
      (Int.ofNat p.targets.length)).toNat) = none := rfl
  have hloop := serveLoop_success_step allOk p.targets p.current n 0
    p.stats r [] [] hidx hlt hok
  rw [← hn] at hloop
  rw [serveHTTP, if_neg (by omega), hloop]
  refine ⟨_, rfl, rfl, ?_, ?_⟩
  · show i64wrap (p.current + 1) = p.current + 1
    exact i64wrap_id _ (by omega) (by omega)
  · show bumpSuccesses (bumpRequests p.stats _) _ = _
    rw [hmod, toNat_ofNat]

theorem serveMany_allOk (r : Request) :
    ∀ (m : Nat) (p : Proxy), 0 < p.targets.length → 0 ≤ p.current →
      p.current + (m : Int) ≤ 9223372036854775807 →
      ∃ p2, serveMany r allOk m p = some p2 ∧
        p2.targets = p.targets ∧
        ∀ i s, p.stats[i]? = some s →
          ∃ s2, p2.stats[i]? = some s2 ∧
            s2.requests = s.requests +
              hits p.current.toNat p.targets.length i m ∧
            s2.successes = s.successes +
              hits p.current.toNat p.targets.length i m ∧
            s2.failures = s.failures
  | 0, p, hN, hc0, hcB => by
    refine ⟨p, rfl, rfl, ?_⟩
    intro i s hs
    exact ⟨s, hs, by simp [hits_zero]⟩
  | m + 1, p, hN, hc0, hcB => by
    obtain ⟨res, hres, htg, hcur, hstats⟩ :=
      serveHTTP_allOk p r hN hc0 (by push_cast at hcB; omega)
    have hN2 : 0 < res.proxy.targets.length := by rw [htg]; exact hN
    have hc02 : 0 ≤ res.proxy.current := by rw [hcur]; omega
    have hcB2 : res.proxy.current + (m : Int) ≤ 9223372036854775807 := by
      rw [hcur]
      push_cast at hcB
      omega
    obtain ⟨p2, hp2, htg2, hst2⟩ := serveMany_allOk r m res.proxy hN2 hc02 hcB2
    refine ⟨p2, ?_, by rw [htg2, htg], ?_⟩
    · rw [serveMany, hres]
      exact hp2
    · intro i s hs
      have htoNat : res.proxy.current.toNat = p.current.toNat + 1 := by
        rw [hcur]; omega
      have hsplit : hits p.current.toNat p.targets.length i (m + 1) =
          (if p.current.toNat % p.targets.length = i then 1 else 0) +
            hits (p.current.toNat + 1) p.targets.length i m := by
        rw [Nat.add_comm m 1, hits_add, hits_one]
      by_cases hii : p.current.toNat % p.targets.length = i
      · have h1 : (bumpRequests p.stats
            (p.current.toNat % p.targets.length))[i]? =
            some { s with requests := s.requests + 1 } := by
          rw [hii]
          exact bumpAt_getElem_eq _ p.stats i s hs
        have h2 : res.proxy.stats[i]? =
            some ⟨s.requests + 1, s.successes + 1, s.failures⟩ := by
          rw [hstats, hii]
          rw [hii] at h1
          exact bumpAt_getElem_eq _ _ i _ h1
        obtain ⟨s2, hs2, hreq, hsuc, hfail⟩ := hst2 i _ h2
        refine ⟨s2, hs2, ?_, ?_, ?_⟩
        · rw [hreq, hsplit, if_pos hii, htg, htoNat]
          dsimp only
          omega
        · rw [hsuc, hsplit, if_pos hii, htg, htoNat]
          dsimp only
          omega
        · rw [hfail]
      · have h2 : res.proxy.stats[i]? = some s := by
          rw [hstats]
          unfold bumpSuccesses bumpRequests
          rw [bumpAt_getElem_ne _ _ _ i hii, bumpAt_getElem_ne _ _ _ i hii]
          exact hs
        obtain ⟨s2, hs2, hreq, hsuc, hfail⟩ := hst2 i _ h2
        refine ⟨s2, hs2, ?_, ?_, ?_⟩
        · rw [hreq, hsplit, if_neg hii, htg, htoNat]
          omega
        · rw [hsuc, hsplit, if_neg hii, htg, htoNat]
          omega
        · rw [hfail]

theorem tryTarget_req (stats : List TargetStats) (r : Request)
    (fails : Nat → Option String) (target : URL) (i : Nat) (isLast : Bool) :
    (tryTarget stats r fails target i isLast).req = setForwardHeaders r := by
  cases hf : fails i with
  | none => simp [tryTarget, hf]
  | some m => simp [tryTarget, hf]

theorem serveLoop_headers (fails : Nat → Option String) (targets : List URL)
    (startIndex : Int) (hostV raV : String) :
    ∀ (remaining attempt : Nat) (stats : List TargetStats) (r : Request)
      (accA : List Attempt) (accW : List ClientWrite) (lr : LoopResult),
      r.host = hostV → r.remoteAddr = raV →
      (∀ a ∈ accA,
        headerGet a.headers "X-Forwarded-Host" = some hostV ∧
        headerGet a.headers "X-Forwarded-For" = some raV) →
      serveLoop fails targets startIndex remaining attempt stats r accA
        accW = some lr →
      ∀ a ∈ lr.attempts,
        headerGet a.headers "X-Forwarded-Host" = some hostV ∧
        headerGet a.headers "X-Forwarded-For" = some raV
  | 0, attempt, stats, r, accA, accW, lr, hh, hra, hacc, hloop => by
    rw [serveLoop] at hloop
    injection hloop with hlr
    subst hlr
    intro a ha
    exact hacc a (List.mem_reverse.mp ha)
  | rem + 1, attempt, stats, r, accA, accW, lr, hh, hra, hacc, hloop => by
    rw [serveLoop] at hloop
    by_cases hcond : 0 ≤ goMod (i64add startIndex (Int.ofNat attempt))
        (Int.ofNat targets.length) ∧
        (goMod (i64add startIndex (Int.ofNat attempt))
          (Int.ofNat targets.length)).toNat < targets.length
    · rw [dif_pos hcond] at hloop
      cases hf : fails ((goMod (i64add startIndex (Int.ofNat attempt))
          (Int.ofNat targets.length)).toNat) with
      | none =>
        simp only [tryTarget, hf] at hloop
        rw [if_pos trivial] at hloop
        injection hloop with hlr
        subst hlr
        intro a ha
        rw [List.mem_reverse] at ha
        rcases List.mem_cons.mp ha with hA | hmem
        · subst hA
          exact ⟨by rw [setForwardHeaders_xfh, hh],
                 by rw [setForwardHeaders_xff, hra]⟩
        · exact hacc a hmem
      | some msg =>
        simp only [tryTarget, hf] at hloop
        rw [if_neg Bool.false_ne_true] at hloop
        refine serveLoop_headers fails targets startIndex hostV raV rem
          (attempt + 1) _ (setForwardHeaders r) _ _ lr hh hra ?_ hloop
        intro a ha
        rcases List.mem_cons.mp ha with hA | hmem
        · subst hA
          exact ⟨by rw [setForwardHeaders_xfh, hh],
                 by rw [setForwardHeaders_xff, hra]⟩
        · exact hacc a hmem
    · rw [dif_neg hcond] at hloop
      exact absurd hloop (by simp)

theorem serveLoop_fail_step_mid (fails : Nat → Option String)
    (targets : List URL) (startIndex : Int) (rem attempt : Nat)
    (stats : List TargetStats) (r : Request) (accA : List Attempt)
    (accW : List ClientWrite) (msg : String)
    (hidx : 0 ≤ goMod (i64add startIndex (Int.ofNat attempt))
      (Int.ofNat targets.length))
    (hlt : (goMod (i64add startIndex (Int.ofNat attempt))
      (Int.ofNat targets.length)).toNat < targets.length)
    (hfail : fails ((goMod (i64add startIndex (Int.ofNat attempt))
      (Int.ofNat targets.length)).toNat) = some msg)
    (hnotlast : attempt ≠ targets.length - 1) :
    serveLoop fails targets startIndex (rem + 1) attempt stats r accA accW =
      serveLoop fails targets startIndex rem (attempt + 1)
        (bumpFailures (bumpRequests stats
          ((goMod (i64add startIndex (Int.ofNat attempt))
            (Int.ofNat targets.length)).toNat))
          ((goMod (i64add startIndex (Int.ofNat attempt))
            (Int.ofNat targets.length)).toNat))
        (setForwardHeaders r)
        (Attempt.mk ((goMod (i64add startIndex (Int.ofNat attempt))
            (Int.ofNat targets.length)).toNat)
          (targets.get ⟨_, hlt⟩).host
          (setForwardHeaders r).headers :: accA)
        accW := by
  rw [serveLoop, dif_pos ⟨hidx, hlt⟩]
  simp only [tryTarget]
  rw [hfail]
  simp only [decide_eq_false hnotlast, if_neg Bool.false_ne_true]

theorem serveLoop_fail_step_last (fails : Nat → Option String)
    (targets : List URL) (startIndex : Int) (rem attempt : Nat)
    (stats : List TargetStats) (r : Request) (accA : List Attempt)
    (accW : List ClientWrite) (msg : String)
    (hidx : 0 ≤ goMod (i64add startIndex (Int.ofNat attempt))
      (Int.ofNat targets.length))
    (hlt : (goMod (i64add startIndex (Int.ofNat attempt))
      (Int.ofNat targets.length)).toNat < targets.length)
    (hfail : fails ((goMod (i64add startIndex (Int.ofNat attempt))
      (Int.ofNat targets.length)).toNat) = some msg)
    (hlast : attempt = targets.length - 1) :
    serveLoop fails targets startIndex (rem + 1) attempt stats r accA accW =
      serveLoop fails targets startIndex rem (attempt + 1)
        (bumpFailures (bumpRequests stats
          ((goMod (i64add startIndex (Int.ofNat attempt))
            (Int.ofNat targets.length)).toNat))
          ((goMod (i64add startIndex (Int.ofNat attempt))
            (Int.ofNat targets.length)).toNat))
        (setForwardHeaders r)
        (Attempt.mk ((goMod (i64add startIndex (Int.ofNat attempt))
            (Int.ofNat targets.length)).toNat)
          (targets.get ⟨_, hlt⟩).host
          (setForwardHeaders r).headers :: accA)
        (ClientWrite.errorJSON 502 (targets.get ⟨_, hlt⟩).host msg ::
          accW) := by
  rw [serveLoop, dif_pos ⟨hidx, hlt⟩]
  simp only [tryTarget]
  rw [hfail]
  have hd : decide (attempt = targets.length - 1) = true := decide_eq_true hlast
  simp only [hd, if_neg Bool.false_ne_true]
  rfl

theorem serveLoop_base (fails : Nat → Option String) (targets : List URL)
    (startIndex : Int) (attempt : Nat) (stats : List TargetStats)
    (r : Request) (accA : List Attempt) (accW : List ClientWrite) :
    serveLoop fails targets startIndex 0 attempt stats r accA accW =
      some ⟨stats, r, accA.reverse, accW.reverse⟩ := by
  rw [serveLoop]

/-! ## Claim theorems -/

/-- Claim C1 (failover correctness): for a fresh dispatcher over the pool
`[A, B, C]` where forwarding to positions 0 and 1 fails (the error hook
fires, with messages `m1`, `m2`) and position 2 succeeds, one `ServeHTTP`
invocation attempts A, then B, then C, stops after C (C's streamed
response is the only client write), and leaves exactly one request and one
failure on A and on B and one request and one success on C. -/
theorem failover_correctness (A B C : URL) (r : Request) (m1 m2 : String) :
    (serveHTTP (freshProxy [A, B, C]) r
        (fun i => if i = 0 then some m1 else
          if i = 1 then some m2 else none)).map
      (fun res => (res.attempts.map Attempt.index,
        res.attempts.map Attempt.targetHost,
        res.proxy.stats, res.writes)) =
      some ([0, 1, 2], [A.host, B.host, C.host],
        [⟨1, 0, 1⟩, ⟨1, 0, 1⟩, ⟨1, 1, 0⟩], [.streamed C.host]) := by
  have hlen : ([A, B, C] : List URL).length = 3 := rfl
  have h1a : 0 ≤ goMod (i64add 0 (Int.ofNat 0))
      (Int.ofNat ([A, B, C] : List URL).length) := by rw [hlen]; decide
  have h1b : (goMod (i64add 0 (Int.ofNat 0))
      (Int.ofNat ([A, B, C] : List URL).length)).toNat <
      ([A, B, C] : List URL).length := by rw [hlen]; decide
  have h1c : (fun i => if i = 0 then some m1 else
      if i = 1 then some m2 else none : Nat → Option String)
      ((goMod (i64add 0 (Int.ofNat 0))
        (Int.ofNat ([A, B, C] : List URL).length)).toNat) = some m1 := rfl
  have h1d : (0 : Nat) ≠ ([A, B, C] : List URL).length - 1 := by
    rw [hlen]; decide
  have h2a : 0 ≤ goMod (i64add 0 (Int.ofNat (0 + 1)))
      (Int.ofNat ([A, B, C] : List URL).length) := by rw [hlen]; decide
  have h2b : (goMod (i64add 0 (Int.ofNat (0 + 1)))
      (Int.ofNat ([A, B, C] : List URL).length)).toNat <
      ([A, B, C] : List URL).length := by rw [hlen]; decide
  have h2c : (fun i => if i = 0 then some m1 else
      if i = 1 then some m2 else none : Nat → Option String)
      ((goMod (i64add 0 (Int.ofNat (0 + 1)))
        (Int.ofNat ([A, B, C] : List URL).length)).toNat) = some m2 := rfl
  have h2d : (0 + 1 : Nat) ≠ ([A, B, C] : List URL).length - 1 := by
    rw [hlen]; decide
  have h3a : 0 ≤ goMod (i64add 0 (Int.ofNat (0 + 1 + 1)))
      (Int.ofNat ([A, B, C] : List URL).length) := by rw [hlen]; decide
  have h3b : (goMod (i64add 0 (Int.ofNat (0 + 1 + 1)))
      (Int.ofNat ([A, B, C] : List URL).length)).toNat <
      ([A, B, C] : List URL).length := by rw [hlen]; decide
  have h3c : (fun i => if i = 0 then some m1 else
      if i = 1 then some m2 else none : Nat → Option String)
      ((goMod (i64add 0 (Int.ofNat (0 + 1 + 1)))
        (Int.ofNat ([A, B, C] : List URL).length)).toNat) = none := rfl
  have e := (serveLoop_fail_step_mid
      (fun i => if i = 0 then some m1 else if i = 1 then some m2 else none)
      [A, B, C] 0 2 0 [⟨0, 0, 0⟩, ⟨0, 0, 0⟩, ⟨0, 0, 0⟩] r [] [] m1
      h1a h1b h1c h1d).trans
    ((serveLoop_fail_step_mid _ [A, B, C] 0 1 (0 + 1) _ _ _ _ m2
      h2a h2b h2c h2d).trans
    (serveLoop_success_step _ [A, B, C] 0 0 (0 + 1 + 1) _ _ _ _
      h3a h3b h3c))
  show (serveHTTP
    (Proxy.mk [A, B, C] 0 [⟨0, 0, 0⟩, ⟨0, 0, 0⟩, ⟨0, 0, 0⟩]) r _).map _ = _
  rw [serveHTTP]
  rw [if_neg (by rw [show (Proxy.mk [A, B, C] 0
    [⟨0, 0, 0⟩, ⟨0, 0, 0⟩, ⟨0, 0, 0⟩]).targets.length = 3 from rfl]; decide)]
  rw [show (Proxy.mk [A, B, C] 0
    [⟨0, 0, 0⟩, ⟨0, 0, 0⟩, ⟨0, 0, 0⟩]).targets = [A, B, C] from rfl]
  rw [show (Proxy.mk [A, B, C] 0
    [⟨0, 0, 0⟩, ⟨0, 0, 0⟩, ⟨0, 0, 0⟩]).current = 0 from rfl]
  rw [show (Proxy.mk [A, B, C] 0
    [⟨0, 0, 0⟩, ⟨0, 0, 0⟩, ⟨0, 0, 0⟩]).stats =
    [⟨0, 0, 0⟩, ⟨0, 0, 0⟩, ⟨0, 0, 0⟩] from rfl]
  rw [show ([A, B, C] : List URL).length = 2 + 1 from rfl]
  rw [e]
  rfl

/-- Claim C2 (exhaustion terminality): for a fresh dispatcher over a pool
of two targets where both forwarding attempts fail (with messages
`msgs 0`, `msgs 1`), one `ServeHTTP` invocation records exactly one request
and one failure per position and zero successes, and performs exactly one
client write: the 502 JSON error whose `last_target` field is the host of
the last target tried (position 1), carrying that attempt's message. -/
theorem exhaustion_terminality (A B : URL) (r : Request)
    (msgs : Nat → String) :
    (serveHTTP (freshProxy [A, B]) r (fun i => some (msgs i))).map
      (fun res => (res.attempts.map Attempt.index,
        res.attempts.map Attempt.targetHost,
        res.proxy.stats, res.writes)) =
      some ([0, 1], [A.host, B.host],
        [⟨1, 0, 1⟩, ⟨1, 0, 1⟩], [.errorJSON 502 B.host (msgs 1)]) := by
  have hlen : ([A, B] : List URL).length = 2 := rfl
  have h1a : 0 ≤ goMod (i64add 0 (Int.ofNat 0))
      (Int.ofNat ([A, B] : List URL).length) := by rw [hlen]; decide
  have h1b : (goMod (i64add 0 (Int.ofNat 0))
      (Int.ofNat ([A, B] : List URL).length)).toNat <
      ([A, B] : List URL).length := by rw [hlen]; decide
  have h1c : (fun i => some (msgs i) : Nat → Option String)
      ((goMod (i64add 0 (Int.ofNat 0))
        (Int.ofNat ([A, B] : List URL).length)).toNat) = some (msgs 0) := rfl
  have h1d : (0 : Nat) ≠ ([A, B] : List URL).length - 1 := by
    rw [hlen]; decide
  have h2a : 0 ≤ goMod (i64add 0 (Int.ofNat (0 + 1)))
      (Int.ofNat ([A, B] : List URL).length) := by rw [hlen]; decide
  have h2b : (goMod (i64add 0 (Int.ofNat (0 + 1)))
      (Int.ofNat ([A, B] : List URL).length)).toNat <
      ([A, B] : List URL).length := by rw [hlen]; decide
  have h2c : (fun i => some (msgs i) : Nat → Option String)
      ((goMod (i64add 0 (Int.ofNat (0 + 1)))
        (Int.ofNat ([A, B] : List URL).length)).toNat) = some (msgs 1) := rfl
  have h2d : (0 + 1 : Nat) = ([A, B] : List URL).length - 1 := by
    rw [hlen]
  have e := (serveLoop_fail_step_mid
      (fun i => some (msgs i)) [A, B] 0 1 0 [⟨0, 0, 0⟩, ⟨0, 0, 0⟩] r [] []
      (msgs 0) h1a h1b h1c h1d).trans
    ((serveLoop_fail_step_last _ [A, B] 0 0 (0 + 1) _ _ _ _ (msgs 1)
      h2a h2b h2c h2d).trans
    (serveLoop_base _ [A, B] 0 (0 + 1 + 1) _ _ _ _))
  show (serveHTTP (Proxy.mk [A, B] 0 [⟨0, 0, 0⟩, ⟨0, 0, 0⟩]) r _).map _ = _
  rw [serveHTTP]
  rw [if_neg (by rw [show (Proxy.mk [A, B] 0
    [⟨0, 0, 0⟩, ⟨0, 0, 0⟩]).targets.length = 2 from rfl]; decide)]
  rw [show (Proxy.mk [A, B] 0
    [⟨0, 0, 0⟩, ⟨0, 0, 0⟩]).targets = [A, B] from rfl]
  rw [show (Proxy.mk [A, B] 0 [⟨0, 0, 0⟩, ⟨0, 0, 0⟩]).current = 0 from rfl]
  rw [show (Proxy.mk [A, B] 0
    [⟨0, 0, 0⟩, ⟨0, 0, 0⟩]).stats = [⟨0, 0, 0⟩, ⟨0, 0, 0⟩] from rfl]
  rw [show ([A, B] : List URL).length = 1 + 1 from rfl]
  rw [e]
  rfl

/-- Claim C9 (idempotent, stateless classification): two error instances
built by `errors.New` from the same error code — whatever their messages or
creation times — classify identically: equal `(Code, Retriable, StatusCode)`
triples.  Retriability and the default status are functions of the code
alone; no hidden mutable state and no remaining-attempt count feeds
`IsRetriable` or `getDefaultStatusCode`. -/
theorem classification_pure_function (c : Errors.ErrorCode)
    (m1 m2 : String) (t1 t2 : Int) :
    Errors.classifyTriple (Errors.New c m1 t1) =
      Errors.classifyTriple (Errors.New c m2 t2) := by
  cases c <;> rfl

/-- Claim C5, counterexample: the claim asserts the no-healthy-targets
class maps to 503, but `getDefaultStatusCode` places
`CodeNoHealthyTargets` in its 502 branch. -/
theorem no_healthy_targets_status_counterexample :
    Errors.getDefaultStatusCode Errors.ErrorCode.noHealthyTargets = 502 ∧
      (Errors.getDefaultStatusCode Errors.ErrorCode.noHealthyTargets ==
        503) = false :=
  ⟨rfl, rfl⟩

/-- Claim C5, amended: for every error code the default status is the
deterministic mapping `specStatus`: client-fault codes keep their
straight-through 4xx statuses; the upstream-unavailability classes AND the
no-healthy-targets class map to 502; the overload class and the
load-balancer/health-check classes map to 503; every other code defaults
to 500. -/
theorem status_mapping_amended (c : Errors.ErrorCode) :
    Errors.getDefaultStatusCode c = Errors.specStatus c := by
  cases c <;> rfl

/-- Claim C6 (code bug): an enabled target whose URL parses with scheme
`ftp` is accepted by pool construction `New` — the pool contains the ftp
target and no error is returned — even though `TargetConfig.Validate`
(and `New`'s own documentation) rejects exactly this target with a
scheme error. -/
theorem scheme_unchecked_at_pool_construction :
    New { targets := [tFtp] } =
      .ok { targets := [⟨"ftp", "example.com", ""⟩], current := 0,
            stats := [⟨0, 0, 0⟩] } ∧
      TargetConfigValidate tFtp =
        some "URL scheme must be http or https, got ftp" :=
  ⟨rfl, rfl⟩

/-- Claim C4, counterexample: the inbound request `rW` already carries
`X-Forwarded-For: 1.2.3.4`, yet the dispatcher forwards the attempt with
`X-Forwarded-For` equal to the request's RemoteAddr `10.0.0.1:5555` — the
existing value is overwritten, not preserved. -/
theorem xforwardedfor_overwrite_counterexample :
    headerGet rW.headers "X-Forwarded-For" = some "1.2.3.4" ∧
      (serveHTTP (freshProxy [uA]) rW allOk).map
        (fun res => res.attempts.map
          (fun a => headerGet a.headers "X-Forwarded-For")) =
        some [some "10.0.0.1:5555"] ∧
      (("10.0.0.1:5555" : String) == "1.2.3.4") = false :=
  ⟨rfl, rfl, rfl⟩

/-- Claim C4, amended: before every forwarding attempt the dispatcher sets
`X-Forwarded-Host` to the inbound request's host, and sets
`X-Forwarded-For` to the request's RemoteAddr, overwriting any value the
inbound request already carried. -/
theorem forwarding_headers_amended (p : Proxy) (r : Request)
    (fails : Nat → Option String) :
    forwardHeadersOk r (serveHTTP p r fails) = true := by
  unfold serveHTTP
  by_cases h0 : p.targets.length = 0
  · rw [if_pos h0]
    rfl
  · rw [if_neg h0]
    cases hloop : serveLoop fails p.targets p.current p.targets.length 0
        p.stats r [] [] with
    | none => rfl
    | some lr =>
      have hall := serveLoop_headers fails p.targets p.current r.host
        r.remoteAddr p.targets.length 0 p.stats r [] [] lr rfl rfl
        (by intro a ha; cases ha) hloop
      dsimp only
      simp only [forwardHeadersOk, List.all_eq_true]
      intro a ha
      obtain ⟨hx, hy⟩ := hall a ha
      simp [hx, hy]

/-- Claim C7 (empty-pool failure, disabled exclusion): pool construction
from a configuration whose targets are all disabled (in particular zero
enabled targets) fails with the no-enabled-targets error; prepending a
disabled entry to any configuration leaves construction unchanged (silent
exclusion, no error); and a configuration of one disabled and one enabled
valid target constructs a pool of size exactly 1 holding just the enabled
target's parsed URL. -/
theorem pool_construction_rules (cfg : Config) (ts : List TargetConfig)
    (d e2 : TargetConfig) (u : URL) :
    ((∀ t ∈ cfg.targets, t.enabled = false) →
      New cfg = .error "no enabled targets configured") ∧
    (d.enabled = false → New { targets := d :: ts } = New { targets := ts }) ∧
    (d.enabled = false → e2.enabled = true → urlParse e2.url = .ok u →
      New { targets := [d, e2] } =
        .ok { targets := [u], current := 0, stats := [⟨0, 0, 0⟩] }) := by
  refine ⟨?_, ?_, ?_⟩
  · intro h
    simp [New, collectTargets_all_disabled cfg.targets h]
  · intro hd
    show New { targets := d :: ts } = New { targets := ts }
    unfold New
    rw [show ({ targets := d :: ts } : Config).targets = d :: ts from rfl,
      collectTargets_cons_disabled d ts hd]
  · intro hd he hu
    simp [New, collectTargets, hd, he, hu, List.replicate]

/-- Witness for C7 at concrete configurations: one disabled target fails
construction; a disabled entry in front of an enabled one changes nothing;
the disabled-plus-enabled configuration builds the singleton pool. -/
theorem pool_construction_rules_witness :
    New { targets := [dW] } = .error "no enabled targets configured" ∧
    New { targets := dW :: [eW] } = New { targets := [eW] } ∧
    New { targets := [dW, eW] } =
      .ok { targets := [uOk], current := 0, stats := [⟨0, 0, 0⟩] } :=
  ⟨(pool_construction_rules ⟨[dW]⟩ [] dW eW uOk).1 (by decide),
   (pool_construction_rules ⟨[]⟩ [eW] dW eW uOk).2.1 rfl,
   (pool_construction_rules ⟨[]⟩ [] dW eW uOk).2.2 rfl rfl rfl⟩

/-- Claim C10 (pool order and content): whenever `New` accepts a
configuration, the resulting pool is exactly the subsequence of enabled
entries in their original order, each parsed from its URL string; its
length is the number of enabled entries. -/
theorem pool_order_and_content (cfg : Config) (p : Proxy)
    (h : New cfg = .ok p) :
    parseAllUrls (cfg.targets.filter (fun t => t.enabled)) =
      some p.targets ∧
    p.targets.length = (cfg.targets.filter (fun t => t.enabled)).length := by
  have hcol : ∃ us, collectTargets cfg.targets = .ok us ∧ p.targets = us := by
    unfold New at h
    cases hc : collectTargets cfg.targets with
    | error e => rw [hc] at h; cases h
    | ok us =>
      rw [hc] at h
      dsimp only at h
      by_cases hz : us.length = 0
      · rw [if_pos hz] at h; cases h
      · rw [if_neg hz] at h
        refine ⟨us, rfl, ?_⟩
        injection h with h2
        rw [← h2]
  obtain ⟨us, hc, hp⟩ := hcol
  have h1 := collectTargets_parseAllUrls cfg.targets us hc
  exact ⟨by rw [hp]; exact h1,
         by rw [hp]; exact parseAllUrls_length _ us h1⟩

/-- Witness for C10 at the concrete configuration `cfgW` (one disabled,
one enabled target): the pool is the parsed enabled URL, length 1. -/
theorem pool_order_and_content_witness :
    parseAllUrls (cfgW.targets.filter (fun t => t.enabled)) =
      some ([uOk] : List URL) ∧
    ([uOk] : List URL).length =
      (cfgW.targets.filter (fun t => t.enabled)).length :=
  pool_order_and_content cfgW ⟨[uOk], 0, [⟨0, 0, 0⟩]⟩ rfl

/-- Claim C8 (outcome-counter invariant): one `tryTarget` call against a
valid position `i` increments `requests[i]` exactly once and exactly one
of `successes[i]` (error hook silent) or `failures[i]` (error hook fired)
exactly once, and therefore preserves
`requests[i] = successes[i] + failures[i]`. -/
theorem trytarget_counter_invariant (stats : List TargetStats) (r : Request)
    (fails : Nat → Option String) (target : URL) (i : Nat) (isLast : Bool)
    (s : TargetStats) (h : stats[i]? = some s) :
    ∃ s2, (tryTarget stats r fails target i isLast).stats[i]? = some s2 ∧
      s2.requests = s.requests + 1 ∧
      (∀ m, fails i = some m →
        s2.failures = s.failures + 1 ∧ s2.successes = s.successes) ∧
      (fails i = none →
        s2.successes = s.successes + 1 ∧ s2.failures = s.failures) ∧
      (s.requests = s.successes + s.failures →
        s2.requests = s2.successes + s2.failures) := by
  have hreq : (bumpRequests stats i)[i]? =
      some { s with requests := s.requests + 1 } :=
    bumpAt_getElem_eq _ stats i s h
  cases hf : fails i with
  | some m =>
    refine ⟨⟨s.requests + 1, s.successes, s.failures + 1⟩, ?_, rfl, ?_, ?_, ?_⟩
    · simp only [tryTarget]
      rw [hf]
      exact bumpAt_getElem_eq _ _ i _ hreq
    · intro m2 _
      exact ⟨rfl, rfl⟩
    · intro hc
      exact Option.noConfusion hc
    · intro hs
      dsimp only
      omega
  | none =>
    refine ⟨⟨s.requests + 1, s.successes + 1, s.failures⟩, ?_, rfl, ?_, ?_, ?_⟩
    · simp only [tryTarget]
      rw [hf]
      exact bumpAt_getElem_eq _ _ i _ hreq
    · intro m2 hc
      exact Option.noConfusion hc
    · intro _
      exact ⟨rfl, rfl⟩
    · intro hs
      dsimp only
      omega

/-- Witness for C8: one attempt against position 0 of a one-entry stats
table with counters (2, 1, 1), failing oracle: requests rises to 3 and
failures to 2, and the invariant 3 = 1 + 2 holds afterwards. -/
theorem trytarget_counter_invariant_witness :
    ([⟨2, 1, 1⟩] : List TargetStats)[0]? = some ⟨2, 1, 1⟩ ∧
    ∃ s2, (tryTarget [⟨2, 1, 1⟩] rW (fun _ => some "boom") uA 0
        true).stats[0]? = some s2 ∧
      s2.requests = 2 + 1 ∧
      (∀ m, (fun _ => some "boom" : Nat → Option String) 0 = some m →
        s2.failures = 1 + 1 ∧ s2.successes = 1) ∧
      ((fun _ => some "boom" : Nat → Option String) 0 = none →
        s2.successes = 1 + 1 ∧ s2.failures = 1) ∧
      ((2 : Nat) = 1 + 1 → s2.requests = s2.successes + s2.failures) :=
  ⟨rfl, trytarget_counter_invariant [⟨2, 1, 1⟩] rW (fun _ => some "boom")
    uA 0 true ⟨2, 1, 1⟩ rfl⟩

/-- Claim C3, counterexample: with the round-robin counter holding the
`int64` value `-3` (every int64 value is a possible counter state, and
negative values are reachable by wrap-around of the always-incremented
counter), a pool of `N = 2` targets and `k = 1` (so `M = 2` sequential
invocations) in which no forwarding attempt fails, the run aborts: Go's
truncated `%` yields the negative index `-3 % 2 = -1` and the slice access
panics (modelled as `none`), so no final state exists in which every
position's requests counter rose by `k`. -/
theorem roundrobin_counter_counterexample :
    serveMany rW allOk 2 pNeg = none ∧
    (serveMany rW allOk 2 pNeg).isSome = false :=
  ⟨rfl, rfl⟩

/-- Claim C3, amended (round-robin fairness): for every pool size `N ≥ 1`,
every `k ≥ 0`, and every round-robin counter value `s` with `0 ≤ s` and
`s + k·N ≤ 2^63 − 1` (no int64 overflow during the run — negative or
overflowing counter values instead crash the dispatch on a negative
index), `M = k·N` sequential `ServeHTTP` invocations in which every first
attempt succeeds give every one of the `N` positions exactly `k` more
requests (and `k` more successes, and no failures). -/
theorem roundrobin_fairness_amended (p : Proxy) (r : Request) (k : Nat)
    (hN : 0 < p.targets.length) (hc0 : 0 ≤ p.current)
    (hcB : p.current + ((k * p.targets.length : Nat) : Int) ≤
      9223372036854775807) :
    ∃ p2, serveMany r allOk (k * p.targets.length) p = some p2 ∧
      p2.targets = p.targets ∧
      ∀ i s, i < p.targets.length → p.stats[i]? = some s →
        ∃ s2, p2.stats[i]? = some s2 ∧
          s2.requests = s.requests + k ∧
          s2.successes = s.successes + k ∧
          s2.failures = s.failures := by
  obtain ⟨p2, hm, htg, hst⟩ :=
    serveMany_allOk r (k * p.targets.length) p hN hc0 hcB
  refine ⟨p2, hm, htg, ?_⟩
  intro i s hi hs
  obtain ⟨s2, hs2, h1, h2, h3⟩ := hst i s hs
  rw [hits_cycles p.current.toNat p.targets.length i k hN hi] at h1 h2
  exact ⟨s2, hs2, h1, h2, h3⟩

/-- Witness for the amended C3: a fresh two-target dispatcher receiving
`M = 2·2 = 4` all-successful sequential invocations gives each position
exactly 2 requests and 2 successes. -/
theorem roundrobin_fairness_witness :
    0 < (freshProxy [uA, uB]).targets.length ∧
    (0 : Int) ≤ (freshProxy [uA, uB]).current ∧
    (freshProxy [uA, uB]).current +
      ((2 * (freshProxy [uA, uB]).targets.length : Nat) : Int) ≤
      9223372036854775807 ∧
    (∃ p2, serveMany rW allOk (2 * (freshProxy [uA, uB]).targets.length)
        (freshProxy [uA, uB]) = some p2 ∧
      p2.targets = (freshProxy [uA, uB]).targets ∧
      ∀ i s, i < (freshProxy [uA, uB]).targets.length →
        (freshProxy [uA, uB]).stats[i]? = some s →
        ∃ s2, p2.stats[i]? = some s2 ∧
          s2.requests = s.requests + 2 ∧
          s2.successes = s.successes + 2 ∧
          s2.failures = s.failures) :=
  ⟨by decide, by decide, by decide,
   roundrobin_fairness_amended (freshProxy [uA, uB]) rW 2
     (by decide) (by decide) (by decide)⟩
